import Mathlib

/-!
Verification of the HagarlaaweNewsBot news relay.

Shallow embedding of the repository's core logic:

* `main.py` — the polling cycle `fetch_and_post`: per-feed candidate
  collection against the persisted cursor (last posted link +
  last published time), the stable sort by publication time, the
  keyword filter ("master filter system"), sentiment parsing
  (`analyze_sentiment`), and the cursor updates.
* `session_analytics.py` — `label_to_score` / `score_to_label`.
* The spec's Buffering Aggregator (cluster buffer state machine),
  which is not among the provided source files and is therefore
  modelled from the spec.

Python strings are modelled as Lean `String`; all character-level
computation is done on `String.data` (`List Char`) so that every
definition evaluates inside the kernel.  Timestamps (epoch seconds,
`time.mktime` results) are modelled as `Nat`; the external effects
(translation API, sentiment API, Telegram delivery) are modelled as
oracle functions, since the code ignores their outcomes for all
control flow that touches the cursor.
-/

namespace NewsBot

/-! ## String utilities (models of Python `str` operations) -/

/-- Model of Python `str.lower()` (the keyword lists and feed titles the
code compares are ASCII, where `Char.toLower` agrees with Python). -/
def pyLower (s : String) : String :=
  String.mk (s.data.map Char.toLower)

/-- `prefixMatch needle hay` — `needle` is a prefix of `hay` (character lists). -/
def prefixMatch : List Char → List Char → Bool
  | [], _ => true
  | _ :: _, [] => false
  | a :: as, b :: bs => a == b && prefixMatch as bs

/-- `occursIn needle hay` — `needle` occurs contiguously inside `hay`;
model of Python's `needle in hay` on strings. -/
def occursIn (needle : List Char) : List Char → Bool
  | [] => prefixMatch needle []
  | c :: rest => prefixMatch needle (c :: rest) || occursIn needle rest

/-- Model of Python `str.capitalize()`: first character upper-cased,
the rest lower-cased. -/
def pyCapitalize (s : String) : String :=
  match s.data with
  | [] => ""
  | c :: cs => String.mk (c.toUpper :: cs.map Char.toLower)

/-! ## Keyword lists and the filter (main.py §5, lines 306-344) -/

/-- main.py `POWELL_ONLY`. -/
def POWELL_ONLY : List String :=
  ["jerome powell", "powell", "fed chair powell"]

/-- main.py `BLOCKED_SPEAKERS`. -/
def BLOCKED_SPEAKERS : List String :=
  ["de guindos", "makhlouf", "sleijpen", "sliejpen", "merz",
   "mann", "wells", "he lifeng",
   "jefferson", "harker", "barkin", "goolsbee", "mester",
   "logan", "cook", "daly", "collins", "barr", "kashkari"]

/-- main.py `HIGH_IMPACT_MACRO`. -/
def HIGH_IMPACT_MACRO : List String :=
  ["cpi", "inflation", "pce", "core pce", "core cpi",
   "nfp", "nonfarm", "unemployment", "jobless claims",
   "gdp", "retail sales", "ppi",
   "pmi", "ism",
   "yield", "yields", "treasury", "risk-off", "risk-on",
   "fomc", "fed policy", "federal reserve",
   "market crash", "selloff", "volatility",
   "white house", "biden", "madaxweyne donald trump"]

/-- main.py `contains` (line 333): lower-case the text and test whether any
lower-cased keyword occurs in it. -/
def contains (text : String) (keywords : List String) : Bool :=
  keywords.any (fun k => occursIn (pyLower k).data (pyLower text).data)

/-- main.py `is_powell` (line 337). -/
def is_powell (text : String) : Bool := contains text POWELL_ONLY

/-- main.py `is_blocked` (line 340). -/
def is_blocked (text : String) : Bool := contains text BLOCKED_SPEAKERS

/-- main.py `is_high_macro` (line 343). -/
def is_high_macro (text : String) : Bool := contains text HIGH_IMPACT_MACRO

/-- The classifier's three outcomes (spec §4.2).  The code in main.py only
ever produces `drop` or `standalone`; `cluster` is unreachable there. -/
inductive Klass
  | drop
  | standalone
  | cluster
deriving DecidableEq, Repr

/-- The "master filter system" of main.py lines 377-395, as the spec's
total classifier: `t = title.lower()`; blocked-speaker check first, then
the non-Powell-Fed check, then the relevance check; everything surviving
is processed as a standalone item. -/
def classify (title : String) : Klass :=
  let t := pyLower title
  if is_blocked t then Klass.drop
  else if occursIn "fed".data t.data && !is_powell t then Klass.drop
  else if !is_powell t && ! is_high_macro t then Klass.drop
  else Klass.standalone

/-! ## Sentiment parsing (main.py `analyze_sentiment`, lines 274-300) -/

/-- The alternatives of the regex `(Bullish|Bearish|Neutral)`, lower-cased:
with `re.IGNORECASE`, matching the pattern in `out` is equivalent to
searching `out.lower()` for these literals. -/
def TONE_PATTERNS : List (List Char) :=
  ["bullish".data, "bearish".data, "neutral".data]

/-- The alternatives of the regex `(Intraday|Short-term|Medium-term|Macro)`,
lower-cased. -/
def HORIZON_PATTERNS : List (List Char) :=
  ["intraday".data, "short-term".data, "medium-term".data, "macro".data]

/-- Leftmost match of a literal alternation, as `re.search` computes it:
scan positions left to right and at each position try the alternatives in
order; return the alternative that matched. -/
def firstAlt (alts : List (List Char)) : List Char → Option (List Char)
  | [] => alts.find? (fun a => prefixMatch a [])
  | c :: rest =>
    match alts.find? (fun a => prefixMatch a (c :: rest)) with
    | some a => some a
    | none => firstAlt alts rest

/-- Python's `\s` on the ASCII range. -/
def isSpaceChar (c : Char) : Bool :=
  c == ' ' || c == '\t' || c == '\n' || c == '\r' || c == '\x0b' || c == '\x0c'

/-- Numeric value of a digit run. -/
def digitsToNat : List Char → Nat → Nat
  | [], acc => acc
  | c :: cs, acc => digitsToNat cs (acc * 10 + (c.toNat - 48))

/-- Attempt to match the regex `Confidence:\s*(\d+)` at the head of `s`
(case sensitive, as in the source); returns the value of the digit group. -/
def confAt (s : List Char) : Option Nat :=
  if prefixMatch "Confidence:".data s then
    let rest := (s.drop "Confidence:".data.length).dropWhile isSpaceChar
    let ds := rest.takeWhile Char.isDigit
    if ds.isEmpty then none else some (digitsToNat ds 0)
  else none

/-- Leftmost match of `Confidence:\s*(\d+)` in `s` (`re.search`). -/
def confSearch : List Char → Option Nat
  | [] => none
  | c :: rest =>
    match confAt (c :: rest) with
    | some n => some n
    | none => confSearch rest

/-- The tone extracted from the API output: leftmost case-insensitive match
of `Bullish|Bearish|Neutral`, then Python `capitalize()`; `"Neutral"` when
there is no match (main.py lines 292, 296). -/
def toneOf (low : List Char) : String :=
  match firstAlt TONE_PATTERNS low with
  | some a => pyCapitalize (String.mk a)
  | none => "Neutral"

/-- The horizon extracted from the API output (main.py lines 293, 297). -/
def horizonOf (low : List Char) : String :=
  match firstAlt HORIZON_PATTERNS low with
  | some a => pyCapitalize (String.mk a)
  | none => "Unknown"

/-- The confidence extracted from the API output, default 50
(main.py lines 294, 298). -/
def confOf (s : List Char) : Int :=
  match confSearch s with
  | some n => (n : Int)
  | none => 50

/-- main.py `analyze_sentiment`.  Its argument models the outcome of the
chat-completion call: `none` when the call raises (the bare `except`
path, line 289-290), `some out` for the stripped response text.  The
regex extraction never raises; line 300 clamps the confidence. -/
def analyze_sentiment (raw : Option String) : String × String × Int :=
  match raw with
  | none => ("Neutral", "Unknown", 50)
  | some out =>
    (toneOf (pyLower out).data, horizonOf (pyLower out).data,
     max 0 (min (confOf out.data) 100))

/-! ## Session analytics (session_analytics.py lines 128-144) -/

/-- session_analytics.py `label_to_score`: case-insensitive mapping of
Bullish to 1, Bearish to -1, everything else to 0. -/
def label_to_score (label : String) : Int :=
  let l := pyLower label
  if l = "bullish" then 1
  else if l = "bearish" then -1
  else 0

/-- session_analytics.py `score_to_label`: thresholds at plus and minus
0.25 (floats in the source; 0.25 is exactly representable, so `ℚ` models
the comparisons exactly). -/
def score_to_label (score : ℚ) : String :=
  if score > 1 / 4 then "Bullish"
  else if score < -(1 / 4) then "Bearish"
  else "Neutral"

/-- The composition `score_to_label (label_to_score label)`, the round trip
of claim C10. -/
def sentimentRoundTrip (s : String) : String :=
  score_to_label ((label_to_score s : Int) : ℚ)

/-! ## The cursor, feed items and the polling cycle (main.py §6) -/

/-- One feedparser entry as `fetch_and_post` reads it: `e.get("link")`,
`e.get("published_parsed")` (converted by `time.mktime` to epoch seconds)
and `e.title`. -/
structure Item where
  link : Option String
  pub : Option Nat
  title : String
deriving DecidableEq, Repr

/-- The persisted cursor: `last_posted_link.txt` (`none` when the file is
missing or empty) and `last_published_time.txt` (0.0 when missing). -/
structure Cursor where
  lastLink : Option String
  lastTime : Nat
deriving DecidableEq, Repr

/-- The watermark test of main.py lines 363-364: the entry is skipped when
it has a timestamp that is at or before `last_time`; kept otherwise.  An
entry without `published_parsed` always passes. -/
def passWatermark (cur : Cursor) (e : Item) : Bool :=
  match e.pub with
  | some p => decide (cur.lastTime < p)
  | none => true

/-- The inner loop over one feed's entries (main.py lines 357-366):
`break` at the first entry whose link equals the stored last link,
`continue` past entries at or before the time watermark, collect the rest. -/
def collectNew (cur : Cursor) : List Item → List Item
  | [] => []
  | e :: rest =>
    if e.link = cur.lastLink then []
    else if passWatermark cur e then e :: collectNew cur rest
    else collectNew cur rest

/-- The outer loop over all configured feeds (main.py lines 354-366):
feeds are consumed in order, each against the cursor loaded at cycle
start. -/
def gatherNew (cur : Cursor) (feeds : List (List Item)) : List Item :=
  feeds.flatMap (collectNew cur)

/-- The sort key of main.py line 368: `published_parsed or time.gmtime()`,
i.e. the entry's timestamp with the current time as fallback. -/
def sortKey (now : Nat) (e : Item) : Nat :=
  e.pub.getD now

/-- The comparison under which the candidate list is sorted. -/
def keyLe (now : Nat) (a b : Item) : Prop :=
  sortKey now a ≤ sortKey now b

instance (now : Nat) : DecidableRel (keyLe now) :=
  fun _ _ => Nat.decLe _ _

instance (now : Nat) : IsTotal Item (keyLe now) :=
  ⟨fun _ _ => Nat.le_total _ _⟩

instance (now : Nat) : IsTrans Item (keyLe now) :=
  ⟨fun _ _ _ h1 h2 => Nat.le_trans h1 h2⟩

/-- One step of the `latest_timestamp` accumulation of main.py line
416-417: raise the running maximum by the item's timestamp when it has
one. -/
def maxPubStep (a : Nat) (e : Item) : Nat :=
  match e.pub with
  | some p => max a p
  | none => a

/-- The external collaborators of one cycle.  `translate` models
`translate_to_somali`, which returns `""` when the API call raises
(main.py lines 267-269); `sentimentRaw` models the sentiment API call as
in `analyze_sentiment`; `sendOk` models `bot.send_message`, whose
exception is caught and logged (lines 403-412), so delivery failure is
visible only as this Boolean. -/
structure Oracles where
  translate : String → String
  sentimentRaw : String → Option String
  sendOk : String → Bool

/-- Lines 398-412: build the message from the translation and sentiment
and attempt delivery.  The result is ignored by the caller, exactly as in
the source, where the `except` branch only logs. -/
def postMessage (o : Oracles) (e : Item) : Bool :=
  let som := o.translate e.title
  let s := analyze_sentiment (o.sentimentRaw e.title)
  let msg := som ++ "\n\n(" ++ s.1 ++ " — " ++ s.2.1 ++ " — Confidence: " ++
    toString s.2.2 ++ "%)"
  o.sendOk msg

/-- Lines 414-417: after the delivery attempt, store the entry's link if
it is truthy, and raise the running `latest_timestamp` (folded here into
`Cursor.lastTime`; the file write of line 421 happens at cycle end, so
for completed cycles the fold is the stored value). -/
def advanceCursor (cur : Cursor) (e : Item) : Cursor :=
  { lastLink :=
      match e.link with
      | some l => if l = "" then cur.lastLink else some l
      | none => cur.lastLink
    lastTime :=
      match e.pub with
      | some p => max cur.lastTime p
      | none => cur.lastTime }

/-- The per-item posting loop (main.py lines 376-419): items failing the
master filter are skipped; for every approved item the message is built
and delivery attempted, and the cursor advances regardless of the
translation and delivery outcomes.  Returns the approved (published)
items in order, and the final cursor state. -/
def processItems (o : Oracles) : Cursor → List Item → List Item × Cursor
  | cur, [] => ([], cur)
  | cur, e :: rest =>
    if classify e.title = Klass.standalone then
      let _delivered := postMessage o e
      let r := processItems o (advanceCursor cur e) rest
      (e :: r.1, r.2)
    else
      processItems o cur rest

/-- One whole poll cycle, main.py `fetch_and_post`: collect candidates
from all feeds against the cursor read at cycle start, sort them stably
by `sortKey` (Mathlib's `insertionSort` is stable, like Python's sort, so
it computes the same list), return early when nothing is new (lines
370-372: no file is written then), otherwise run the posting loop. -/
def fetch_and_post (o : Oracles) (now : Nat) (cur : Cursor)
    (feeds : List (List Item)) : List Item × Cursor :=
  let new_items := gatherNew cur feeds
  let sorted := List.insertionSort (keyLe now) new_items
  if new_items = [] then ([], cur)
  else processItems o cur sorted

/-- The cursor after running a sequence of completed cycles (main.py
`main` loop; each cycle is a pair of the fetch time and the feed
contents observed in that cycle). -/
def cursorAfter (o : Oracles) : Cursor → List (Nat × List (List Item)) → Cursor
  | cur, [] => cur
  | cur, (now, feeds) :: rest =>
    cursorAfter o (fetch_and_post o now cur feeds).2 rest

/-- The items published during cycle `i` of a run. -/
def publishedInCycle (o : Oracles) (cur : Cursor)
    (cycles : List (Nat × List (List Item))) (i : Nat) : List Item :=
  match cycles[i]? with
  | none => []
  | some (now, feeds) =>
    (fetch_and_post o now (cursorAfter o cur (cycles.take i)) feeds).1

/-! ## The Buffering Aggregator (modelled from the spec) -/

/-- Modelled from the spec: the Buffering Aggregator of spec §4.3 (the
per-`groupKey` cluster buffer state machine) is not among the provided
source files of this repository; the spec is the only description
available.  `items` and `openedAt` are the spec's ClusterBuffer fields;
buffers for distinct group keys are independent, so one group's buffer is
modelled. -/
structure ClusterBuffer where
  items : List String
  openedAt : Nat
deriving DecidableEq, Repr

/-- Modelled from the spec: `timeBudget` = 300 seconds (spec §4.3). -/
def timeBudget : Nat := 300

/-- Modelled from the spec: `sizeBudget` = 10 items (spec §4.3). -/
def sizeBudget : Nat := 10

/-- Modelled from the spec: arrival of this tick's cluster items — first
item opens the buffer recording `openedAt = now`, later items append with
`openedAt` unchanged. -/
def addItems (now : Nat) (incoming : List String) :
    Option ClusterBuffer → Option ClusterBuffer
  | none =>
    match incoming with
    | [] => none
    | xs => some ⟨xs, now⟩
  | some b => some ⟨b.items ++ incoming, b.openedAt⟩

/-- Modelled from the spec: the flush condition
`(now - openedAt > timeBudget) OR (len(items) >= sizeBudget)`. -/
def shouldFlush (now : Nat) (b : ClusterBuffer) : Bool :=
  decide (timeBudget < now - b.openedAt) || decide (sizeBudget ≤ b.items.length)

/-- Modelled from the spec: one cycle tick of the state machine — incoming
cluster items are buffered, then the flush condition is evaluated for the
open buffer whether or not anything arrived; on flush the buffer is
deleted and all buffered items are emitted as one aggregate. -/
def tick (now : Nat) (incoming : List String) (st : Option ClusterBuffer) :
    Option ClusterBuffer × Option (List String) :=
  match addItems now incoming st with
  | none => (none, none)
  | some b => if shouldFlush now b then (none, some b.items) else (some b, none)

/-- Modelled from the spec: the idle scenario of claim C3 — a buffer
opened at time `T` by a single item `x`, then ticks every `gap` seconds
with no further items.  `idleRun T gap x j` is the state and flush output
of the tick at time `T + j * gap`. -/
def idleRun (T gap : Nat) (x : String) : Nat → Option ClusterBuffer × Option (List String)
  | 0 => tick T [x] none
  | j + 1 => tick (T + (j + 1) * gap) [] (idleRun T gap x j).1

/-! ## Concrete instances used by counterexamples and witnesses -/

/-- The empty starting cursor: no stored link, watermark 0.0. -/
def cur0 : Cursor := ⟨none, 0⟩

/-- An oracle on which every external call fails: translation raises (so
`translate_to_somali` returns `""`), the sentiment call raises, delivery
raises (caught and logged). -/
def oFail : Oracles := ⟨fun _ => "", fun _ => none, fun _ => false⟩

/-- A timestamped, filter-approved item ("cpi" is in `HIGH_IMPACT_MACRO`). -/
def itemX : Item := ⟨some "x", some 50, "cpi"⟩

/-- An approved item without `published_parsed`. -/
def itemXn : Item := ⟨some "x", none, "cpi"⟩

/-- A second approved item without `published_parsed`. -/
def itemYn : Item := ⟨some "y", none, "gdp"⟩

/-- Two cycles observing the same feed whose two entries lack timestamps. -/
def dupCycles : List (Nat × List (List Item)) :=
  [(100, [[itemYn, itemXn]]), (200, [[itemYn, itemXn]])]

/-- Approved item at epoch 10. -/
def itemX10 : Item := ⟨some "x", some 10, "cpi"⟩

/-- Approved item at epoch 20. -/
def itemZ20 : Item := ⟨some "z", some 20, "gdp"⟩

/-- A run whose first cycle publishes `itemX10` and whose second cycle
publishes `itemZ20` (the feed still lists the already-posted item). -/
def runCycles2 : List (Nat × List (List Item)) :=
  [(100, [[itemX10]]), (200, [[itemZ20, itemX10]])]

/-- An approved entry without a timestamp (for the sort-order claims). -/
def entNoTs : Item := ⟨some "a", none, "cpi"⟩

/-- An approved entry published in the future relative to fetch time 100. -/
def entFuture : Item := ⟨some "b", some 200, "gdp"⟩

/-- A cursor whose stored link is `"x"` with watermark 0. -/
def curX : Cursor := ⟨some "x", 0⟩

/-- The already-posted entry matching `curX.lastLink`. -/
def entX : Item := ⟨some "x", none, "old"⟩

/-- A fresh entry, timestamped past the watermark, sitting after `entX` in
its feed. -/
def entC : Item := ⟨some "c", some 10, "fresh"⟩

/-- A cursor with stored link `"z"` and watermark 3. -/
def curZ : Cursor := ⟨some "z", 3⟩

/-! ## Helper lemmas -/

/-- The per-feed loop characterized: take the prefix strictly before the
first entry whose link equals the stored last link, and keep those prefix
entries that pass the timestamp watermark. -/
theorem collectNew_eq (cur : Cursor) (feed : List Item) :
    collectNew cur feed =
      (feed.takeWhile (fun e => decide (e.link ≠ cur.lastLink))).filter
        (passWatermark cur) := by
  induction feed with
  | nil => rfl
  | cons e rest ih =>
    by_cases h : e.link = cur.lastLink
    · simp [collectNew, h, List.takeWhile_cons]
    · cases hw : passWatermark cur e
      · simp [collectNew, h, hw, List.takeWhile_cons, ih]
      · simp [collectNew, h, hw, List.takeWhile_cons, ih]

/-- Every collected entry carrying a timestamp is strictly past the
watermark. -/
theorem pub_of_mem_collectNew {cur : Cursor} {feed : List Item} {e : Item}
    {q : Nat} (he : e ∈ collectNew cur feed) (hq : e.pub = some q) :
    cur.lastTime < q := by
  rw [collectNew_eq] at he
  have hw := (List.mem_filter.mp he).2
  simpa [passWatermark, hq] using hw

/-- Every candidate of the cycle carrying a timestamp is strictly past the
watermark. -/
theorem pub_of_mem_gatherNew {cur : Cursor} {feeds : List (List Item)}
    {e : Item} {q : Nat} (he : e ∈ gatherNew cur feeds) (hq : e.pub = some q) :
    cur.lastTime < q := by
  rw [gatherNew, List.mem_flatMap] at he
  obtain ⟨feed, -, hmem⟩ := he
  exact pub_of_mem_collectNew hmem hq

/-- The posting loop publishes exactly the filter-approved items, in
order. -/
theorem processItems_fst (o : Oracles) (cur : Cursor) (items : List Item) :
    (processItems o cur items).1 =
      items.filter (fun e => decide (classify e.title = Klass.standalone)) := by
  induction items generalizing cur with
  | nil => rfl
  | cons e rest ih =>
    by_cases h : classify e.title = Klass.standalone
    · simp [processItems, h, ih]
    · simp [processItems, h, ih]

/-- The stored timestamp never decreases across the posting loop. -/
theorem processItems_time_mono (o : Oracles) (cur : Cursor) (items : List Item) :
    cur.lastTime ≤ (processItems o cur items).2.lastTime := by
  induction items generalizing cur with
  | nil => exact le_refl _
  | cons e rest ih =>
    by_cases h : classify e.title = Klass.standalone
    · have h1 : cur.lastTime ≤ (advanceCursor cur e).lastTime := by
        cases hp : e.pub <;> simp [advanceCursor, hp]
      simp only [processItems, if_pos h]
      exact le_trans h1 (ih (advanceCursor cur e))
    · simp only [processItems, if_neg h]
      exact ih cur

/-- Every published timestamp is at or below the loop's final stored
timestamp. -/
theorem processItems_pub_le (o : Oracles) {cur : Cursor} {items : List Item}
    {e : Item} {p : Nat} (he : e ∈ (processItems o cur items).1)
    (hp : e.pub = some p) : p ≤ (processItems o cur items).2.lastTime := by
  induction items generalizing cur with
  | nil => simp [processItems] at he
  | cons a rest ih =>
    by_cases h : classify a.title = Klass.standalone
    · simp only [processItems, if_pos h] at he ⊢
      rcases List.mem_cons.mp he with rfl | hmem
      · have hadv : p ≤ (advanceCursor cur e).lastTime := by
          simp [advanceCursor, hp]
        exact le_trans hadv (processItems_time_mono o _ rest)
      · exact ih hmem
    · simp only [processItems, if_neg h] at he ⊢
      exact ih he

/-- The loop's final stored timestamp is the fold of `maxPubStep` over the
published items, started at the timestamp read at cycle start. -/
theorem processItems_time_fold (o : Oracles) (cur : Cursor) (items : List Item) :
    (processItems o cur items).2.lastTime =
      List.foldl maxPubStep cur.lastTime (processItems o cur items).1 := by
  induction items generalizing cur with
  | nil => rfl
  | cons e rest ih =>
    by_cases h : classify e.title = Klass.standalone
    · have hstep : maxPubStep cur.lastTime e = (advanceCursor cur e).lastTime := by
        cases hp : e.pub <;> simp [maxPubStep, advanceCursor, hp]
      simp [processItems, h, hstep, ih]
    · simp [processItems, h, ih]

/-- The published list of one cycle, characterized. -/
theorem fetch_posted_eq (o : Oracles) (now : Nat) (cur : Cursor)
    (feeds : List (List Item)) :
    (fetch_and_post o now cur feeds).1 =
      (List.insertionSort (keyLe now) (gatherNew cur feeds)).filter
        (fun e => decide (classify e.title = Klass.standalone)) := by
  by_cases h : gatherNew cur feeds = []
  · simp [fetch_and_post, h]
  · simp [fetch_and_post, h, processItems_fst]

/-- Published items are candidates of the cycle. -/
theorem mem_posted {o : Oracles} {now : Nat} {cur : Cursor}
    {feeds : List (List Item)} {e : Item}
    (he : e ∈ (fetch_and_post o now cur feeds).1) : e ∈ gatherNew cur feeds := by
  rw [fetch_posted_eq] at he
  have h1 := (List.mem_filter.mp he).1
  exact ((List.perm_insertionSort (keyLe now) (gatherNew cur feeds)).mem_iff).mp h1

/-- The stored timestamp never decreases across one cycle. -/
theorem fetch_time_mono (o : Oracles) (now : Nat) (cur : Cursor)
    (feeds : List (List Item)) :
    cur.lastTime ≤ (fetch_and_post o now cur feeds).2.lastTime := by
  by_cases h : gatherNew cur feeds = []
  · simp [fetch_and_post, h]
  · simp only [fetch_and_post, h, if_neg (by simpa using h)]
    exact processItems_time_mono o cur _

/-- A published timestamp is at or below the cycle's final stored
timestamp. -/
theorem fetch_pub_le {o : Oracles} {now : Nat} {cur : Cursor}
    {feeds : List (List Item)} {e : Item} {p : Nat}
    (he : e ∈ (fetch_and_post o now cur feeds).1) (hp : e.pub = some p) :
    p ≤ (fetch_and_post o now cur feeds).2.lastTime := by
  by_cases h : gatherNew cur feeds = []
  · rw [fetch_posted_eq] at he
    simp [h] at he
  · have heq : fetch_and_post o now cur feeds =
        processItems o cur (List.insertionSort (keyLe now) (gatherNew cur feeds)) := by
      simp [fetch_and_post, h]
    rw [heq] at he ⊢
    exact processItems_pub_le o he hp

/-- Running a run in two parts. -/
theorem cursorAfter_append (o : Oracles) (cur : Cursor)
    (l1 l2 : List (Nat × List (List Item))) :
    cursorAfter o cur (l1 ++ l2) = cursorAfter o (cursorAfter o cur l1) l2 := by
  induction l1 generalizing cur with
  | nil => rfl
  | cons c rest ih =>
    obtain ⟨now, feeds⟩ := c
    simp [cursorAfter, ih]

/-- The stored timestamp never decreases across any sequence of completed
cycles. -/
theorem cursorAfter_time_mono (o : Oracles) (cur : Cursor)
    (cycles : List (Nat × List (List Item))) :
    cur.lastTime ≤ (cursorAfter o cur cycles).lastTime := by
  induction cycles generalizing cur with
  | nil => exact le_refl _
  | cons c rest ih =>
    obtain ⟨now, feeds⟩ := c
    simp only [cursorAfter]
    exact le_trans (fetch_time_mono o now cur feeds) (ih _)

/-- A successful alternation search returns one of its alternatives. -/
theorem firstAlt_mem {alts : List (List Char)} {s a : List Char}
    (h : firstAlt alts s = some a) : a ∈ alts := by
  induction s with
  | nil => exact List.mem_of_find?_eq_some h
  | cons c rest ih =>
    rw [firstAlt] at h
    cases hf : alts.find? (fun p => prefixMatch p (c :: rest)) with
    | some b =>
      rw [hf] at h
      cases h
      exact List.mem_of_find?_eq_some hf
    | none =>
      rw [hf] at h
      exact ih h

/-- Idle buffer: while `j * gap` has not exceeded the time budget, the tick
at `T + j * gap` leaves the single-item buffer open and emits nothing. -/
theorem idleRun_open (T gap : Nat) (x : String) :
    ∀ j, j ≤ timeBudget / gap → idleRun T gap x j = (some ⟨[x], T⟩, none) := by
  intro j
  induction j with
  | zero =>
    intro _
    simp [idleRun, tick, addItems, shouldFlush, timeBudget, sizeBudget]
  | succ j ih =>
    intro hj
    have hstate := ih (Nat.le_of_succ_le hj)
    have hle : (j + 1) * gap ≤ timeBudget :=
      le_trans (Nat.mul_le_mul_right gap hj) (Nat.div_mul_le_self timeBudget gap)
    have hnot : ¬ (timeBudget < (j + 1) * gap) := Nat.not_lt.mpr hle
    rw [idleRun, hstate]
    simp [tick, addItems, shouldFlush, Nat.add_sub_cancel_left, hnot,
      timeBudget, sizeBudget]
    exact hle

/-- The upper threshold case of `score_to_label`. -/
theorem score_to_label_one : score_to_label ((1 : Int) : ℚ) = "Bullish" := by
  norm_num [score_to_label]

/-- The lower threshold case of `score_to_label`. -/
theorem score_to_label_negOne : score_to_label ((-1 : Int) : ℚ) = "Bearish" := by
  norm_num [score_to_label]

/-- The middle case of `score_to_label`. -/
theorem score_to_label_zero : score_to_label ((0 : Int) : ℚ) = "Neutral" := by
  norm_num [score_to_label]

/-! ## Claim theorems -/

/-- C1, counterexample: the claim "no item identity (link) is ever
published twice ... including items that lack a publishedAt timestamp" is
false on the code.  A feed lists two untimestamped approved entries; the
first cycle publishes both (links `y` then `x`), so the stored link is
`x` and the watermark stays 0; the second cycle sees the same feed, and
the entry with link `y` differs from the stored link and has no
timestamp, so it is collected and published again. -/
theorem c1_counterexample :
    some "y" ∈ (publishedInCycle oFail cur0 dupCycles 0).map Item.link ∧
    some "y" ∈ (publishedInCycle oFail cur0 dupCycles 1).map Item.link := by
  constructor
  · decide
  · decide

/-- C1 (amended): once an item carrying a publishedAt timestamp has been
published and its cycle completed, every item published in any later
cycle carries a strictly greater timestamp; in particular no timestamped
item (same identity and timestamp) is ever published twice.  Items
lacking a timestamp are not covered (see the counterexample). -/
theorem c1_no_timestamped_republication (o : Oracles) (cur : Cursor)
    (cycles : List (Nat × List (List Item))) (i j : Nat) (e f : Item)
    (p q : Nat) (hij : i < j)
    (he : e ∈ publishedInCycle o cur cycles i)
    (hf : f ∈ publishedInCycle o cur cycles j)
    (hp : e.pub = some p) (hq : f.pub = some q) : p < q := by
  rcases hci : cycles[i]? with _ | ⟨ni, fi⟩
  · simp [publishedInCycle, hci] at he
  · rcases hcj : cycles[j]? with _ | ⟨nj, fj⟩
    · simp [publishedInCycle, hcj] at hf
    · simp only [publishedInCycle, hci] at he
      simp only [publishedInCycle, hcj] at hf
      have h1 : p ≤ (cursorAfter o cur (cycles.take (i + 1))).lastTime := by
        rw [List.take_succ, hci]
        rw [cursorAfter_append]
        simp only [Option.toList, cursorAfter]
        exact fetch_pub_le he hp
      have h2 : (cursorAfter o cur (cycles.take (i + 1))).lastTime ≤
          (cursorAfter o cur (cycles.take j)).lastTime := by
        have hd : cycles.take j =
            cycles.take (i + 1) ++ (cycles.drop (i + 1)).take (j - (i + 1)) := by
          rw [← List.take_add]
          congr 1
          omega
        rw [hd, cursorAfter_append]
        exact cursorAfter_time_mono ..
      have h3 : (cursorAfter o cur (cycles.take j)).lastTime < q :=
        pub_of_mem_gatherNew (mem_posted hf) hq
      omega

/-- C1, witness: a concrete two-cycle run; the first cycle publishes the
item at epoch 10, the second a fresh item at epoch 20, and the theorem
yields 10 < 20. -/
theorem c1_witness :
    itemX10 ∈ publishedInCycle oFail cur0 runCycles2 0 ∧
    itemZ20 ∈ publishedInCycle oFail cur0 runCycles2 1 ∧ (10 : Nat) < 20 :=
  ⟨by decide, by decide,
    c1_no_timestamped_republication oFail cur0 runCycles2 0 1 itemX10 itemZ20
      10 20 (by decide) (by decide) (by decide) rfl rfl⟩

/-- C2, counterexample: the claim "if translation fails for item X and no
other item in the cycle succeeds, neither the stored link nor the stored
timestamp changes" is false on the code.  On the oracle where translation
returns `""` (its failure value) and delivery fails too, the single-item
cycle still advances the cursor from `(none, 0)` to `(some "x", 50)`:
main.py lines 403-417 catch the Telegram error and then update the cursor
unconditionally. -/
theorem c2_counterexample :
    oFail.translate itemX.title = "" ∧ oFail.sendOk "" = false ∧
    (fetch_and_post oFail 100 cur0 [[itemX]]).2 ≠ cur0 ∧
    (fetch_and_post oFail 100 cur0 [[itemX]]).2 = ⟨some "x", 50⟩ := by
  refine ⟨rfl, rfl, by decide, by decide⟩

/-- C2 (amended): the cursor advances for every item that passes the
classification filter, regardless of translation and delivery outcomes:
whatever the oracles do, a cycle whose single candidate is an approved
item with nonempty link `l` and timestamp `p` ends with stored link `l`
and stored time `max old p`; the item is therefore not re-offered. -/
theorem c2_cursor_advances_on_failure (o : Oracles) (now : Nat) (cur : Cursor)
    (feeds : List (List Item)) (X : Item) (l : String) (p : Nat)
    (hg : gatherNew cur feeds = [X]) (hl : X.link = some l) (hne : l ≠ "")
    (hp : X.pub = some p) (hcls : classify X.title = Klass.standalone) :
    (fetch_and_post o now cur feeds).2 = ⟨some l, max cur.lastTime p⟩ := by
  simp [fetch_and_post, hg, processItems, hcls, advanceCursor, hl, hne, hp]

/-- C2, witness: the amended theorem applied to the failing oracle and the
concrete single-item cycle. -/
theorem c2_witness :
    (fetch_and_post oFail 100 cur0 [[itemX]]).2 = ⟨some "x", max cur0.lastTime 50⟩ :=
  c2_cursor_advances_on_failure oFail 100 cur0 [[itemX]] itemX "x" 50
    (by decide) rfl (by decide) rfl (by decide)

/-- C3 (spec-modelled, confirmed): a buffer opened at time `T` with one
item and receiving no further items stays open at every tick up to
`T + (timeBudget / gap) * gap` and flushes exactly at the first tick past
the time budget, at `T + (timeBudget / gap + 1) * gap`, which lies in
`(T + timeBudget, T + timeBudget + gap]` — within one polling interval
after `T + timeBudget`, not earlier and not later. -/
theorem c3_idle_timeout (T gap : Nat) (x : String) (j : Nat) (hgap : 0 < gap) :
    (j ≤ timeBudget / gap → idleRun T gap x j = (some ⟨[x], T⟩, none)) ∧
    idleRun T gap x (timeBudget / gap + 1) = (none, some [x]) ∧
    timeBudget < (timeBudget / gap + 1) * gap ∧
    (timeBudget / gap + 1) * gap ≤ timeBudget + gap := by
  have hgt : timeBudget < (timeBudget / gap + 1) * gap := by
    have h1 := Nat.div_add_mod timeBudget gap
    have h2 := Nat.mod_lt timeBudget hgap
    calc timeBudget = gap * (timeBudget / gap) + timeBudget % gap := h1.symm
      _ < gap * (timeBudget / gap) + gap := Nat.add_lt_add_left h2 _
      _ = (timeBudget / gap + 1) * gap := by ring
  refine ⟨idleRun_open T gap x j, ?_, hgt, ?_⟩
  · have hopen := idleRun_open T gap x (timeBudget / gap) (le_refl _)
    rw [idleRun, hopen]
    simp [tick, addItems, shouldFlush, Nat.add_sub_cancel_left, hgt, sizeBudget]
  · calc (timeBudget / gap + 1) * gap = timeBudget / gap * gap + gap := by ring
      _ ≤ timeBudget + gap :=
        Nat.add_le_add_right (Nat.div_mul_le_self timeBudget gap) gap

/-- C3, witness: with the 60-second polling interval, the buffer is still
open at the tick at T + 300 and flushes at T + 360. -/
theorem c3_witness :
    idleRun 0 60 "s" 5 = (some ⟨["s"], 0⟩, none) ∧
    idleRun 0 60 "s" (timeBudget / 60 + 1) = (none, some ["s"]) ∧
    timeBudget < (timeBudget / 60 + 1) * 60 ∧
    (timeBudget / 60 + 1) * 60 ≤ timeBudget + 60 := by
  have h := c3_idle_timeout 0 60 "s" 5 (by decide)
  exact ⟨h.1 (by decide), h.2.1, h.2.2.1, h.2.2.2⟩

/-- C4 (confirmed): the stored watermark is monotone — per cycle, the
value written at cycle end is at least the value read at cycle start, and
equals the fold of `max` over the timestamps of the items processed
(published) this cycle, started from the old value; and across any
sequence of completed cycles the watermark never decreases. -/
theorem c4_watermark_monotone (o : Oracles) (now : Nat) (cur : Cursor)
    (feeds : List (List Item)) (cycles : List (Nat × List (List Item))) :
    cur.lastTime ≤ (fetch_and_post o now cur feeds).2.lastTime ∧
    (fetch_and_post o now cur feeds).2.lastTime =
      List.foldl maxPubStep cur.lastTime (fetch_and_post o now cur feeds).1 ∧
    cur.lastTime ≤ (cursorAfter o cur cycles).lastTime := by
  refine ⟨fetch_time_mono o now cur feeds, ?_, cursorAfter_time_mono o cur cycles⟩
  by_cases h : gatherNew cur feeds = []
  · simp [fetch_and_post, h]
  · have heq : fetch_and_post o now cur feeds =
        processItems o cur (List.insertionSort (keyLe now) (gatherNew cur feeds)) := by
      simp [fetch_and_post, h]
    rw [heq]
    exact processItems_time_fold o cur _

/-- C5, counterexample: the claim "a timestamped entry becomes a candidate
if and only if its publishedAt is strictly greater than the watermark" is
false on the code: the `break` on the stored link ends the feed early, so
`entC` (timestamp 10, strictly past the watermark 0, link differing from
the stored one) is not collected because it sits after the entry matching
the stored link. -/
theorem c5_counterexample :
    entC.pub = some 10 ∧ curX.lastTime < 10 ∧
    entC ∉ collectNew curX [entX, entC] :=
  ⟨rfl, by decide, by decide⟩

/-- C5 (amended): the watermark criterion is necessary for every collected
entry — a timestamped candidate is always strictly past the watermark —
and sufficient only within the prefix of the feed strictly before the
first entry whose link equals the stored link; there, an entry passing
the watermark test (which never drops untimestamped entries) is
collected. -/
theorem c5_watermark_criterion (cur : Cursor) (feed : List Item) (e : Item) :
    (∀ q, e.pub = some q → e ∈ collectNew cur feed → cur.lastTime < q) ∧
    (e ∈ feed.takeWhile (fun x => decide (x.link ≠ cur.lastLink)) →
      passWatermark cur e = true → e ∈ collectNew cur feed) := by
  constructor
  · intro q hq he
    exact pub_of_mem_collectNew he hq
  · intro hm hw
    rw [collectNew_eq]
    exact List.mem_filter.mpr ⟨hm, hw⟩

/-- C5, witness: in the prefix before any link match, an entry past the
watermark is collected. -/
theorem c5_witness : entC ∈ collectNew curZ [entC] ∧ curZ.lastTime < 10 :=
  ⟨(c5_watermark_criterion curZ [entC] entC).2 (by decide) (by decide), by decide⟩

/-- C6, counterexample: the claim "items lacking a timestamp sort after
all timestamped items" is false on the code: the fallback key is the
fetch time (`time.gmtime()`), so an entry timestamped in the future
(epoch 200, fetch time 100) is published after the untimestamped entry,
i.e. an untimestamped item precedes a timestamped one. -/
theorem c6_counterexample :
    (fetch_and_post oFail 100 cur0 [[entFuture, entNoTs]]).1 = [entNoTs, entFuture] ∧
    entNoTs.pub = none ∧ entFuture.pub = some 200 :=
  ⟨by decide, rfl, rfl⟩

/-- C6 (amended): within one cycle the published list is exactly the
stable sort of the candidates by publication key (`publishedAt`, with the
fetch time as fallback for untimestamped items — hence after all items
published at or before fetch time, but not after future-dated ones)
restricted to the filter-approved items, and it is pairwise
non-decreasing in that key; in particular timestamped outputs appear in
non-decreasing `publishedAt` order. -/
theorem c6_published_in_sorted_order (o : Oracles) (now : Nat) (cur : Cursor)
    (feeds : List (List Item)) :
    (fetch_and_post o now cur feeds).1 =
      (List.insertionSort (keyLe now) (gatherNew cur feeds)).filter
        (fun e => decide (classify e.title = Klass.standalone)) ∧
    List.Pairwise (keyLe now) (fetch_and_post o now cur feeds).1 := by
  refine ⟨fetch_posted_eq o now cur feeds, ?_⟩
  rw [fetch_posted_eq]
  have hs : List.Pairwise (keyLe now)
      (List.insertionSort (keyLe now) (gatherNew cur feeds)) :=
    List.sorted_insertionSort (keyLe now) (gatherNew cur feeds)
  exact hs.sublist (List.filter_sublist _)

/-- C7 (confirmed): the classifier is total — every title maps to exactly
one of drop, standalone, cluster (the code reaches only drop and
standalone) — and the blocked-speaker exclusion is checked first, so a
text matching an exclusion pattern is dropped no matter what else it
matches. -/
theorem c7_classifier_total_exclusion_first : ∀ t : String,
    (classify t = Klass.drop ∨ classify t = Klass.standalone ∨
      classify t = Klass.cluster) ∧
    (is_blocked (pyLower t) = true → classify t = Klass.drop) := by
  intro t
  constructor
  · by_cases h1 : is_blocked (pyLower t) = true
    · left
      simp [classify, h1]
    · by_cases h2 : (occursIn "fed".data (pyLower t).data && !is_powell (pyLower t)) = true
      · left
        simp [classify, h1, h2]
      · by_cases h3 : (!is_powell (pyLower t) && ! is_high_macro (pyLower t)) = true
        · left
          simp [classify, h1, h2, h3]
        · right
          left
          simp [classify, h1, h2, h3]
  · intro hb
    simp [classify, hb]

/-- C7, witness: a title matching both a blocked speaker and a high-impact
macro keyword is dropped. -/
theorem c7_witness :
    classify "jefferson cpi" = Klass.drop ∧
    is_high_macro (pyLower "jefferson cpi") = true :=
  ⟨(c7_classifier_total_exclusion_first "jefferson cpi").2 (by decide), by decide⟩

/-- C8 (confirmed): consuming one feed stops at the first entry whose link
equals the cursor's stored last link — the collected entries are exactly
the watermark-passing members of the prefix strictly before that entry,
so nothing at or after the matching position is considered — and the
merged candidate list is the per-feed collections concatenated, each feed
judged independently against the cycle-start cursor. -/
theorem c8_break_at_stored_link (cur : Cursor) (feeds : List (List Item))
    (feed : List Item) :
    gatherNew cur feeds = feeds.flatMap (collectNew cur) ∧
    collectNew cur feed =
      (feed.takeWhile (fun e => decide (e.link ≠ cur.lastLink))).filter
        (passWatermark cur) :=
  ⟨rfl, collectNew_eq cur feed⟩

/-- C9 (confirmed): `analyze_sentiment` is total on the modelled API
outcome; the tone is always Bullish, Bearish or Neutral; the horizon is
always Intraday, Short-term, Medium-term, Macro or Unknown; the
confidence is an integer clamped to [0, 100]; and when the API call
fails the result is exactly ("Neutral", "Unknown", 50). -/
theorem c9_analyze_sentiment_total :
    (∀ raw : Option String,
      (analyze_sentiment raw).1 ∈ (["Bullish", "Bearish", "Neutral"] : List String) ∧
      (analyze_sentiment raw).2.1 ∈
        (["Intraday", "Short-term", "Medium-term", "Macro", "Unknown"] : List String) ∧
      0 ≤ (analyze_sentiment raw).2.2 ∧ (analyze_sentiment raw).2.2 ≤ 100) ∧
    analyze_sentiment none = ("Neutral", "Unknown", 50) := by
  refine ⟨?_, rfl⟩
  intro raw
  cases raw with
  | none => refine ⟨by decide, by decide, by decide, by decide⟩
  | some out =>
    refine ⟨?_, ?_, ?_, ?_⟩
    · show toneOf (pyLower out).data ∈ _
      cases hf : firstAlt TONE_PATTERNS (pyLower out).data with
      | none => simp [toneOf, hf]
      | some a =>
        have ha := firstAlt_mem hf
        simp only [TONE_PATTERNS, List.mem_cons, List.mem_singleton,
          List.not_mem_nil, or_false] at ha
        rcases ha with rfl | rfl | rfl <;> simp only [toneOf, hf] <;> decide
    · show horizonOf (pyLower out).data ∈ _
      cases hf : firstAlt HORIZON_PATTERNS (pyLower out).data with
      | none => simp [horizonOf, hf]
      | some a =>
        have ha := firstAlt_mem hf
        simp only [HORIZON_PATTERNS, List.mem_cons, List.mem_singleton,
          List.not_mem_nil, or_false] at ha
        rcases ha with rfl | rfl | rfl | rfl <;> simp only [horizonOf, hf] <;> decide
    · show 0 ≤ max 0 (min (confOf out.data) 100)
      exact le_max_left 0 _
    · show max 0 (min (confOf out.data) 100) ≤ 100
      exact max_le (by norm_num) (min_le_right _ _)

/-- C10, counterexample: the claim "any string outside the three labels
maps through the composition to Neutral" is false as stated: `"BULLISH"`
is not one of the three exact labels, yet the case-insensitive
`label_to_score` sends it to 1 and the composition yields `"Bullish"`. -/
theorem c10_counterexample :
    sentimentRoundTrip "BULLISH" = "Bullish" ∧
    ("BULLISH" : String) ∉ (["Bullish", "Bearish", "Neutral"] : List String) := by
  have h : label_to_score "BULLISH" = 1 := by decide
  refine ⟨?_, by decide⟩
  rw [sentimentRoundTrip, h]
  exact score_to_label_one

/-- C10 (amended): the conversions round-trip on the three canonical
labels, and any string whose lower-cased form is none of bullish,
bearish, neutral maps through the composition to "Neutral" (case
variants of the labels map to the corresponding canonical label). -/
theorem c10_roundtrip :
    (sentimentRoundTrip "Bullish" = "Bullish" ∧
      sentimentRoundTrip "Bearish" = "Bearish" ∧
      sentimentRoundTrip "Neutral" = "Neutral") ∧
    (∀ s : String, pyLower s ≠ "bullish" → pyLower s ≠ "bearish" →
      pyLower s ≠ "neutral" → sentimentRoundTrip s = "Neutral") := by
  constructor
  · refine ⟨?_, ?_, ?_⟩
    · have h : label_to_score "Bullish" = 1 := by decide
      rw [sentimentRoundTrip, h]
      exact score_to_label_one
    · have h : label_to_score "Bearish" = -1 := by decide
      rw [sentimentRoundTrip, h]
      exact score_to_label_negOne
    · have h : label_to_score "Neutral" = 0 := by decide
      rw [sentimentRoundTrip, h]
      exact score_to_label_zero
  · intro s h1 h2 _h3
    have h : label_to_score s = 0 := by
      simp only [label_to_score, if_neg h1, if_neg h2]
    rw [sentimentRoundTrip, h]
    exact score_to_label_zero

/-- C10, witness: a non-label string maps to Neutral. -/
theorem c10_witness : sentimentRoundTrip "rates" = "Neutral" :=
  c10_roundtrip.2 "rates" (by decide) (by decide) (by decide)

end NewsBot
